import Mathlib

/-!
# Verification of the counter-consistency and balance-ledger core

Shallow embedding of the social-media backend's database handlers.
Rows of the relational store become Lean structures, tables become lists,
and each handler becomes a pure state transformer
`DB → Except Err result × DB`. Timestamps are integers (milliseconds since
the epoch, matching JavaScript `Date.getTime()`); monetary values (the
store's `numeric(10,2)` column) are exact fixed-point integers in cents,
so `19.99` is the integer `1999`.

Handlers that wrap their writes in `db.transaction` are modelled so that a
failure leaves the database unchanged (the transaction rolls back).
`purchasePremium` in the source performs its two writes as independent
statements with no enclosing transaction, so its failure-injected variant
commits the first write even when the second fails.
-/

namespace SocialApp

/-- A row of `usersTable` (fields relevant to the core invariants). -/
structure User where
  id : Nat
  balance : Int
  followers_count : Int
  following_count : Int
  is_premium : Bool
  premium_expires_at : Option Int
  is_active : Bool
deriving DecidableEq

/-- A row of `postsTable`. -/
structure Post where
  id : Nat
  user_id : Nat
  likes_count : Int
  comments_count : Int
  shares_count : Int
  is_active : Bool
deriving DecidableEq

/-- A row of `likesTable`; the schema puts a unique index on
`(user_id, post_id)`. -/
structure LikeRow where
  user_id : Nat
  post_id : Nat
deriving DecidableEq

/-- A row of `followsTable`; unique index on `(follower_id, followed_id)`. -/
structure FollowRow where
  follower_id : Nat
  followed_id : Nat
deriving DecidableEq

/-- A row of `sharesTable`; unique index on `(user_id, post_id)`. -/
structure ShareRow where
  user_id : Nat
  post_id : Nat
deriving DecidableEq

/-- `transactionTypeEnum`. -/
inductive TxType where
  | topup
  | purchase
  | refund
deriving DecidableEq

/-- `transactionStatusEnum`. -/
inductive TxStatus where
  | pending
  | completed
  | failed
deriving DecidableEq

/-- A row of `transactionsTable` (ledger). -/
structure TransactionRow where
  user_id : Nat
  type : TxType
  amount : Int
  premium_package_id : Option Nat
  status : TxStatus
deriving DecidableEq

/-- A row of `premiumPackagesTable`. -/
structure PremiumPackage where
  id : Nat
  price : Int
  duration_days : Nat
  is_active : Bool
deriving DecidableEq

/-- A row of `notificationsTable` (fields relevant to `getNotifications`). -/
structure NotificationRow where
  id : Nat
  user_id : Nat
  is_read : Bool
  created_at : Int
deriving DecidableEq

/-- The relational store. -/
structure DB where
  users : List User
  posts : List Post
  likes : List LikeRow
  follows : List FollowRow
  shares : List ShareRow
  packages : List PremiumPackage
  transactions : List TransactionRow
  notifications : List NotificationRow
deriving DecidableEq

/-- The errors the handlers `throw` (one constructor per distinct message). -/
inductive Err where
  | userNotFound
  | postNotFound
  | packageNotFound
  | packageInactive
  | insufficientBalance
  | alreadyLiked
  | alreadyShared
  | alreadyFollowing
  | selfFollow
  | dbFailure
deriving DecidableEq

instance {ε α : Type} [DecidableEq ε] [DecidableEq α] : DecidableEq (Except ε α) := fun x y =>
  match x, y with
  | .ok a, .ok b =>
    if h : a = b then .isTrue (h ▸ rfl) else .isFalse (fun hc => h (Except.ok.inj hc))
  | .ok _, .error _ => .isFalse (fun hc => Except.noConfusion hc)
  | .error _, .ok _ => .isFalse (fun hc => Except.noConfusion hc)
  | .error a, .error b =>
    if h : a = b then .isTrue (h ▸ rfl) else .isFalse (fun hc => h (Except.error.inj hc))

/-- `Except.ok`ness, as a Boolean. -/
def isOk {α : Type} : Except Err α → Bool
  | .ok _ => true
  | .error _ => false

/-- `SELECT * FROM users WHERE id = uid` (first row). -/
def findUser (db : DB) (uid : Nat) : Option User :=
  db.users.find? (fun u => u.id == uid)

/-- `SELECT * FROM posts WHERE id = pid` (first row). -/
def findPost (db : DB) (pid : Nat) : Option Post :=
  db.posts.find? (fun p => p.id == pid)

/-- `UPDATE users SET ... WHERE id = uid`. -/
def updateUserRows (db : DB) (uid : Nat) (f : User → User) : DB :=
  { db with users := db.users.map (fun u => if u.id == uid then f u else u) }

/-- `UPDATE posts SET ... WHERE id = pid`. -/
def updatePostRows (db : DB) (pid : Nat) (f : Post → Post) : DB :=
  { db with posts := db.posts.map (fun p => if p.id == pid then f p else p) }

/-- The `WHERE user_id = uid AND post_id = pid` condition on likes. -/
def likePair (uid pid : Nat) (l : LikeRow) : Bool :=
  l.user_id == uid && l.post_id == pid

/-- The corresponding condition on shares. -/
def sharePair (uid pid : Nat) (s : ShareRow) : Bool :=
  s.user_id == uid && s.post_id == pid

/-- The `WHERE follower_id = a AND followed_id = b` condition on follows. -/
def followPair (a b : Nat) (f : FollowRow) : Bool :=
  f.follower_id == a && f.followed_id == b

/-- Handler `createLike` (`handlers/create_like.ts`, implemented variant):
check user exists, check post exists and is active, reject a duplicate,
then in one transaction insert the like and increment `likes_count`. -/
def createLike (uid pid : Nat) (db : DB) : Except Err LikeRow × DB :=
  match findUser db uid with
  | none => (.error .userNotFound, db)
  | some _ =>
    match db.posts.find? (fun p => p.id == pid && p.is_active) with
    | none => (.error .postNotFound, db)
    | some _ =>
      if db.likes.any (likePair uid pid) then
        (.error .alreadyLiked, db)
      else
        let row : LikeRow := { user_id := uid, post_id := pid }
        (.ok row,
          updatePostRows { db with likes := db.likes ++ [row] } pid
            (fun p => { p with likes_count := p.likes_count + 1 }))

/-- Handler `deleteLike` (`handlers/delete_like.ts`): inside one transaction,
if the like row does not exist return `{success:false}`; else if the post
does not exist throw; else delete the like and decrement `likes_count`,
clamped at zero (`GREATEST(likes_count - 1, 0)`). -/
def deleteLike (uid pid : Nat) (db : DB) : Except Err Bool × DB :=
  if db.likes.any (likePair uid pid) then
    match findPost db pid with
    | none => (.error .postNotFound, db)
    | some _ =>
      (.ok true,
        updatePostRows
          { db with likes := db.likes.filter (fun l => !(likePair uid pid l)) }
          pid (fun p => { p with likes_count := max (p.likes_count - 1) 0 }))
  else
    (.ok false, db)

/-- Handler `createShare` (`handlers/create_share.ts`): inside one
transaction, check user exists, check post exists and is active, reject a
duplicate, insert the share and set `shares_count` to the selected post's
`shares_count + 1`. -/
def createShare (uid pid : Nat) (db : DB) : Except Err ShareRow × DB :=
  match findUser db uid with
  | none => (.error .userNotFound, db)
  | some _ =>
    match db.posts.find? (fun p => p.id == pid && p.is_active) with
    | none => (.error .postNotFound, db)
    | some post =>
      if db.shares.any (sharePair uid pid) then
        (.error .alreadyShared, db)
      else
        let row : ShareRow := { user_id := uid, post_id := pid }
        (.ok row,
          updatePostRows { db with shares := db.shares ++ [row] } pid
            (fun p => { p with shares_count := post.shares_count + 1 }))

/-- `users.any (id == uid && is_active)`: one side of the `UNION` existence
check in `createFollow` (the union deduplicates, so with distinct ids the
result has length 2 exactly when both sides are nonempty). -/
def activeUserExists (db : DB) (uid : Nat) : Bool :=
  db.users.any (fun u => u.id == uid && u.is_active)

/-- Handler `createFollow` (`handlers/create_follow.ts`): reject self-follow
first, then require both users to exist and be active, reject a duplicate,
then in one transaction insert the follow row, increment the follower's
`following_count` and the followed user's `followers_count`. -/
def createFollow (followerId followedId : Nat) (db : DB) : Except Err FollowRow × DB :=
  if followerId == followedId then
    (.error .selfFollow, db)
  else if !(activeUserExists db followerId && activeUserExists db followedId) then
    (.error .userNotFound, db)
  else if db.follows.any (followPair followerId followedId) then
    (.error .alreadyFollowing, db)
  else
    let row : FollowRow := { follower_id := followerId, followed_id := followedId }
    let db1 := { db with follows := db.follows ++ [row] }
    let db2 := updateUserRows db1 followerId
      (fun u => { u with following_count := u.following_count + 1 })
    let db3 := updateUserRows db2 followedId
      (fun u => { u with followers_count := u.followers_count + 1 })
    (.ok row, db3)

/-- Handler `deleteFollow` (`handlers/delete_follow.ts`): inside one
transaction, if the follow row does not exist return `{success:false}`;
else delete it and decrement both counters, with no zero clamp
(`following_count - 1`, `followers_count - 1`). -/
def deleteFollow (followerId followedId : Nat) (db : DB) : Except Err Bool × DB :=
  if db.follows.any (followPair followerId followedId) then
    let db1 := { db with
      follows := db.follows.filter (fun f => !(followPair followerId followedId f)) }
    let db2 := updateUserRows db1 followerId
      (fun u => { u with following_count := u.following_count - 1 })
    let db3 := updateUserRows db2 followedId
      (fun u => { u with followers_count := u.followers_count - 1 })
    (.ok true, db3)
  else
    (.ok false, db)

/-- Input of `topUpBalance` (`topUpInputSchema`: the transport validates
`amount` to be positive before the handler runs). -/
structure TopUpInput where
  user_id : Nat
  amount : Int

/-- Handler `topUpBalance` (`handlers/top_up_balance.ts`) with failure
injection: the whole body runs inside `db.transaction`, so `txFails = true`
(the database rejecting either write) aborts with every write rolled back.
On success: append a `topup/completed` Transaction row and set the balance
to the selected row's balance plus the amount. -/
def topUpBalanceF (txFails : Bool) (input : TopUpInput) (db : DB) :
    Except Err TransactionRow × DB :=
  match findUser db input.user_id with
  | none => (.error .userNotFound, db)
  | some user =>
    if txFails then
      (.error .dbFailure, db)
    else
      let tx : TransactionRow := {
        user_id := input.user_id
        type := .topup
        amount := input.amount
        premium_package_id := none
        status := .completed }
      let db1 := { db with transactions := db.transactions ++ [tx] }
      let db2 := updateUserRows db1 input.user_id
        (fun u => { u with balance := user.balance + input.amount })
      (.ok tx, db2)

/-- `topUpBalance` on the failure-free path. -/
def topUpBalance (input : TopUpInput) (db : DB) : Except Err TransactionRow × DB :=
  topUpBalanceF false input db

/-- Handler `purchasePremium` (`handlers/purchase_premium.ts`) with failure
injection. Precondition checks in source order: user exists, package
exists, package active, balance sufficient. The new expiration starts from
the current expiration when it exists and lies in the future
(`currentExpiration && currentExpiration > now ? currentExpiration : now`)
and adds `duration_days * 24*60*60*1000` milliseconds.

The source performs the user `UPDATE` and the ledger `INSERT` as two
independent statements with NO enclosing `db.transaction` (its
`// Start transaction` comment is not implemented), so `insertFails = true`
leaves the already-committed user update in place while the Transaction
row is missing. -/
def purchasePremiumF (updateFails insertFails : Bool) (now : Int)
    (userId packageId : Nat) (db : DB) : Except Err TransactionRow × DB :=
  match findUser db userId with
  | none => (.error .userNotFound, db)
  | some user =>
    match db.packages.find? (fun p => p.id == packageId) with
    | none => (.error .packageNotFound, db)
    | some pkg =>
      if !pkg.is_active then
        (.error .packageInactive, db)
      else if user.balance < pkg.price then
        (.error .insufficientBalance, db)
      else
        let startDate : Int :=
          match user.premium_expires_at with
          | some cur => if now < cur then cur else now
          | none => now
        let newExpiration : Int := startDate + (pkg.duration_days : Int) * 86400000
        let newBalance : Int := user.balance - pkg.price
        if updateFails then
          (.error .dbFailure, db)
        else
          let db1 := updateUserRows db userId (fun u =>
            { u with
              balance := newBalance
              is_premium := true
              premium_expires_at := some newExpiration })
          if insertFails then
            (.error .dbFailure, db1)
          else
            let tx : TransactionRow := {
              user_id := userId
              type := .purchase
              amount := pkg.price
              premium_package_id := some packageId
              status := .completed }
            (.ok tx, { db1 with transactions := db1.transactions ++ [tx] })

/-- `purchasePremium` on the failure-free path. -/
def purchasePremium (now : Int) (userId packageId : Nat) (db : DB) :
    Except Err TransactionRow × DB :=
  purchasePremiumF false false now userId packageId db

/-- Insert a notification into a list kept sorted by `created_at`
descending (model of the SQL `ORDER BY created_at DESC`). -/
def insertByCreatedDesc (n : NotificationRow) :
    List NotificationRow → List NotificationRow
  | [] => [n]
  | m :: ms =>
    if m.created_at ≤ n.created_at then n :: m :: ms
    else m :: insertByCreatedDesc n ms

/-- Sort by `created_at` descending (model of `ORDER BY created_at DESC`). -/
def sortByCreatedDesc : List NotificationRow → List NotificationRow
  | [] => []
  | n :: ns => insertByCreatedDesc n (sortByCreatedDesc ns)

/-- Handler `getNotifications` (unnamed source, `getNotifications`): select
the caller's notifications newest-first (no pagination); if any were
returned, `UPDATE notifications SET is_read = true WHERE user_id = userId`;
return the selected rows with `is_read` overridden to `true`. -/
def getNotifications (userId : Nat) (db : DB) : List NotificationRow × DB :=
  let results := sortByCreatedDesc
    (db.notifications.filter (fun n => n.user_id == userId))
  let marked := db.notifications.map
    (fun n => if n.user_id == userId then { n with is_read := true } else n)
  let db' :=
    if 0 < results.length then { db with notifications := marked } else db
  (results.map (fun n => { n with is_read := true }), db')

/-- Number of `likesTable` rows for a post (as the integer the counter
column would have to equal). -/
def countLikes (db : DB) (pid : Nat) : Int :=
  (db.likes.countP (fun l => l.post_id == pid) : Int)

/-- Number of `sharesTable` rows for a post. -/
def countShares (db : DB) (pid : Nat) : Int :=
  (db.shares.countP (fun s => s.post_id == pid) : Int)

/-- Number of `followsTable` rows in which the user is followed. -/
def countFollowers (db : DB) (uid : Nat) : Int :=
  (db.follows.countP (fun f => f.followed_id == uid) : Int)

/-- Number of `followsTable` rows in which the user is the follower. -/
def countFollowing (db : DB) (uid : Nat) : Int :=
  (db.follows.countP (fun f => f.follower_id == uid) : Int)

/-- Spec properties P1/I1/I2: every denormalized counter equals the count
of its relationship rows. -/
def countersConsistent (db : DB) : Prop :=
  (∀ p ∈ db.posts,
    p.likes_count = countLikes db p.id ∧ p.shares_count = countShares db p.id) ∧
  (∀ u ∈ db.users,
    u.followers_count = countFollowers db u.id ∧
      u.following_count = countFollowing db u.id)

/-- The schema's unique indexes `likes_user_post_idx`, `shares_user_post_idx`
and `follows_relation_idx`. -/
def uniquePairs (db : DB) : Prop :=
  (db.likes.map (fun l => (l.user_id, l.post_id))).Nodup ∧
  (db.shares.map (fun s => (s.user_id, s.post_id))).Nodup ∧
  (db.follows.map (fun f => (f.follower_id, f.followed_id))).Nodup

/-- A database state satisfying the storage-level unique constraints and
the counter-consistency invariant. -/
def WF (db : DB) : Prop := uniquePairs db ∧ countersConsistent db

instance (db : DB) : Decidable (countersConsistent db) := by
  unfold countersConsistent; infer_instance

instance (db : DB) : Decidable (uniquePairs db) := by
  unfold uniquePairs; infer_instance

instance (db : DB) : Decidable (WF db) := by
  unfold WF; infer_instance

/-! ## Generic list lemmas -/

lemma countP_and_not_add {α : Type} (p q : α → Bool) (l : List α) :
    (l.filter (fun a => !(q a))).countP p + l.countP (fun a => p a && q a) =
      l.countP p := by
  rw [List.countP_filter]
  induction l with
  | nil => simp
  | cons a l ih =>
    simp only [List.countP_cons]
    cases hp : p a <;> cases hq : q a <;> simp [hp, hq] <;> omega

lemma countP_le_one_of_nodup {α β : Type} [DecidableEq β] (f : α → β) (k : β)
    (pa : α → Bool) (hpf : ∀ a, pa a = true → f a = k) (l : List α)
    (h : (l.map f).Nodup) : l.countP pa ≤ 1 := by
  induction l with
  | nil => simp
  | cons a l ih =>
    simp only [List.map_cons, List.nodup_cons] at h
    obtain ⟨hna, hnd⟩ := h
    rw [List.countP_cons]
    cases hpa : pa a
    · simpa using ih hnd
    · have h0 : l.countP pa = 0 := by
        rw [List.countP_eq_zero]
        intro b hb hpb
        exact hna (List.mem_map.mpr ⟨b, hb, by rw [hpf b hpb, hpf a hpa]⟩)
      simp [h0]

lemma one_le_countP_of_any {α : Type} (p : α → Bool) (l : List α)
    (h : l.any p = true) : 1 ≤ l.countP p := by
  rw [List.any_eq_true] at h
  obtain ⟨x, hx, hpx⟩ := h
  exact List.countP_pos_iff.mpr ⟨x, hx, hpx⟩

lemma any_filter_not {α : Type} (q : α → Bool) (l : List α) :
    (l.filter (fun a => !(q a))).any q = false := by
  rw [List.any_eq_false]
  intro x hx
  have := (List.mem_filter.mp hx).2
  simp at this
  simp [this]

lemma find?_map_pres {α : Type} (g : α → α) (p : α → Bool)
    (hp : ∀ a, p (g a) = p a) (l : List α) :
    (l.map g).find? p = (l.find? p).map g := by
  rw [List.find?_map]
  have : p ∘ g = p := funext hp
  rw [this]

lemma countP_pair_eq_one {α : Type} (f g : α → Nat) (a b : Nat) (l : List α)
    (hnd : (l.map (fun x => (f x, g x))).Nodup)
    (hany : l.any (fun x => f x == a && g x == b) = true) :
    l.countP (fun x => f x == a && g x == b) = 1 := by
  have h1 := one_le_countP_of_any _ _ hany
  have h2 := countP_le_one_of_nodup (fun x => (f x, g x)) (a, b)
    (fun x => f x == a && g x == b) (fun x hx => by
      simp only [Bool.and_eq_true, beq_iff_eq] at hx
      simp [hx.1, hx.2]) l hnd
  omega

lemma countP_filter_remove {α : Type} (pz q : α → Bool) (l : List α)
    (himp : ∀ x, q x = true → pz x = true) (h1 : l.countP q = 1) :
    (l.filter (fun x => !(q x))).countP pz + 1 = l.countP pz := by
  have hadd := countP_and_not_add pz q l
  have heq : l.countP (fun x => pz x && q x) = l.countP q := by
    apply List.countP_congr
    intro x _
    cases hq : q x
    · simp [hq]
    · simp [hq, himp x hq]
  omega

lemma countP_filter_keep {α : Type} (pz q : α → Bool) (l : List α)
    (hdisj : ∀ x, q x = true → pz x = false) :
    (l.filter (fun x => !(q x))).countP pz = l.countP pz := by
  have hadd := countP_and_not_add pz q l
  have h0 : l.countP (fun x => pz x && q x) = 0 := by
    rw [List.countP_eq_zero]
    intro x _ hc
    simp only [Bool.and_eq_true] at hc
    have := hdisj x hc.2
    rw [this] at hc
    exact Bool.noConfusion hc.1
  omega

/-! ## Invariant preservation -/

lemma countLikes_append_like (db : DB) (uid pid P : Nat) :
    countLikes { db with likes := db.likes ++ [⟨uid, pid⟩] } P =
      countLikes db P + (if pid = P then 1 else 0) := by
  unfold countLikes
  rw [List.countP_append]
  by_cases hP : pid = P
  · subst hP; simp
  · simp [hP]

lemma WF_createLike (uid pid : Nat) (db : DB) (h : WF db) :
    WF (createLike uid pid db).2 := by
  obtain ⟨⟨hndL, hndS, hndF⟩, hcP, hcU⟩ := h
  unfold createLike
  cases hu : findUser db uid with
  | none => exact ⟨⟨hndL, hndS, hndF⟩, hcP, hcU⟩
  | some u =>
  cases hp : db.posts.find? (fun p => p.id == pid && p.is_active) with
  | none => exact ⟨⟨hndL, hndS, hndF⟩, hcP, hcU⟩
  | some post =>
  cases hl : db.likes.any (likePair uid pid) with
  | true => exact ⟨⟨hndL, hndS, hndF⟩, hcP, hcU⟩
  | false =>
  simp only [Bool.false_eq_true, if_false]
  refine ⟨⟨?_, hndS, hndF⟩, ?_, ?_⟩
  · show (List.map (fun l => (l.user_id, l.post_id))
      (db.likes ++ [⟨uid, pid⟩])).Nodup
    rw [List.map_append, List.nodup_append]
    refine ⟨hndL, by simp, ?_⟩
    intro a ha hb
    simp only [List.map_cons, List.map_nil, List.mem_singleton] at hb
    subst hb
    obtain ⟨l', hl', he⟩ := List.mem_map.mp ha
    have hpair : likePair uid pid l' = true := by
      unfold likePair
      simp only [Prod.mk.injEq] at he
      simp [he.1, he.2]
    have hany : db.likes.any (likePair uid pid) = true :=
      List.any_eq_true.mpr ⟨l', hl', hpair⟩
    rw [hl] at hany
    exact Bool.noConfusion hany
  · intro p' hp'
    obtain ⟨p, hpm, rfl⟩ := List.mem_map.mp hp'
    have hpm' : p ∈ db.posts := hpm
    have hbase := hcP p hpm'
    have hcount := countLikes_append_like db uid pid
    by_cases hid : p.id = pid
    · have hb : (p.id == pid) = true := by simp [hid]
      simp only [hb, if_true]
      constructor
      · show p.likes_count + 1 =
          countLikes { db with likes := db.likes ++ [⟨uid, pid⟩] } p.id
        rw [hcount, if_pos hid.symm, ← hbase.1]
      · show p.shares_count =
          countShares { db with likes := db.likes ++ [⟨uid, pid⟩] } p.id
        exact hbase.2
    · have hb : (p.id == pid) = false := by simp [hid]
      simp only [hb, Bool.false_eq_true, if_false]
      constructor
      · show p.likes_count =
          countLikes { db with likes := db.likes ++ [⟨uid, pid⟩] } p.id
        rw [hcount, if_neg (Ne.symm hid), add_zero]
        exact hbase.1
      · exact hbase.2
  · intro u' hu'
    exact hcU u' hu'

lemma countShares_append_share (db : DB) (uid pid P : Nat) :
    countShares { db with shares := db.shares ++ [⟨uid, pid⟩] } P =
      countShares db P + (if pid = P then 1 else 0) := by
  unfold countShares
  rw [List.countP_append]
  by_cases hP : pid = P
  · subst hP; simp
  · simp [hP]

lemma WF_createShare (uid pid : Nat) (db : DB) (h : WF db) :
    WF (createShare uid pid db).2 := by
  obtain ⟨⟨hndL, hndS, hndF⟩, hcP, hcU⟩ := h
  unfold createShare
  cases hu : findUser db uid with
  | none => exact ⟨⟨hndL, hndS, hndF⟩, hcP, hcU⟩
  | some u =>
  cases hp : db.posts.find? (fun p => p.id == pid && p.is_active) with
  | none => exact ⟨⟨hndL, hndS, hndF⟩, hcP, hcU⟩
  | some post =>
  cases hs : db.shares.any (sharePair uid pid) with
  | true => exact ⟨⟨hndL, hndS, hndF⟩, hcP, hcU⟩
  | false =>
  simp only [Bool.false_eq_true, if_false]
  have hpostmem : post ∈ db.posts := List.mem_of_find?_eq_some hp
  have hpostpred := List.find?_some hp
  have hpostid : post.id = pid := by
    simp only [Bool.and_eq_true, beq_iff_eq] at hpostpred
    exact hpostpred.1
  have hpostcnt : post.shares_count = countShares db pid := by
    have hthis := (hcP post hpostmem).2
    rwa [hpostid] at hthis
  refine ⟨⟨hndL, ?_, hndF⟩, ?_, ?_⟩
  · show (List.map (fun s => (s.user_id, s.post_id))
      (db.shares ++ [⟨uid, pid⟩])).Nodup
    rw [List.map_append, List.nodup_append]
    refine ⟨hndS, by simp, ?_⟩
    intro a ha hb
    simp only [List.map_cons, List.map_nil, List.mem_singleton] at hb
    subst hb
    obtain ⟨s', hs', he⟩ := List.mem_map.mp ha
    have hpair : sharePair uid pid s' = true := by
      unfold sharePair
      simp only [Prod.mk.injEq] at he
      simp [he.1, he.2]
    have hany : db.shares.any (sharePair uid pid) = true :=
      List.any_eq_true.mpr ⟨s', hs', hpair⟩
    rw [hs] at hany
    exact Bool.noConfusion hany
  · intro p' hp'
    obtain ⟨p, hpm, rfl⟩ := List.mem_map.mp hp'
    have hpm' : p ∈ db.posts := hpm
    have hbase := hcP p hpm'
    have hcount := countShares_append_share db uid pid
    by_cases hid : p.id = pid
    · have hb : (p.id == pid) = true := by simp [hid]
      simp only [hb, if_true]
      constructor
      · exact hbase.1
      · show post.shares_count + 1 =
          countShares { db with shares := db.shares ++ [⟨uid, pid⟩] } p.id
        rw [hcount, if_pos hid.symm, hid, ← hpostcnt]
    · have hb : (p.id == pid) = false := by simp [hid]
      simp only [hb, Bool.false_eq_true, if_false]
      constructor
      · exact hbase.1
      · show p.shares_count =
          countShares { db with shares := db.shares ++ [⟨uid, pid⟩] } p.id
        rw [hcount, if_neg (Ne.symm hid), add_zero]
        exact hbase.2
  · intro u' hu'
    exact hcU u' hu'

lemma WF_deleteLike (uid pid : Nat) (db : DB) (h : WF db) :
    WF (deleteLike uid pid db).2 := by
  obtain ⟨⟨hndL, hndS, hndF⟩, hcP, hcU⟩ := h
  unfold deleteLike
  cases hl : db.likes.any (likePair uid pid) with
  | false => exact ⟨⟨hndL, hndS, hndF⟩, hcP, hcU⟩
  | true =>
  cases hp : findPost db pid with
  | none => exact ⟨⟨hndL, hndS, hndF⟩, hcP, hcU⟩
  | some post =>
  have hl' : (db.likes.any fun l => l.user_id == uid && l.post_id == pid) = true := hl
  have hone' : (db.likes.countP fun l => l.user_id == uid && l.post_id == pid) = 1 :=
    countP_pair_eq_one (fun l => l.user_id) (fun l => l.post_id) uid pid db.likes hndL hl'
  have hone : db.likes.countP (likePair uid pid) = 1 := hone'
  refine ⟨⟨?_, hndS, hndF⟩, ?_, ?_⟩
  · show (List.map (fun l => (l.user_id, l.post_id))
      (db.likes.filter (fun l => !(likePair uid pid l)))).Nodup
    exact List.Nodup.sublist
      (List.Sublist.map _ (List.filter_sublist db.likes)) hndL
  · intro p' hp'
    obtain ⟨p, hpm, rfl⟩ := List.mem_map.mp hp'
    have hpm' : p ∈ db.posts := hpm
    have hbase := hcP p hpm'
    have hb1 := hbase.1
    unfold countLikes at hb1
    by_cases hid : p.id = pid
    · have hb : (p.id == pid) = true := by simp [hid]
      simp only [hb, if_true]
      constructor
      · show max (p.likes_count - 1) 0 =
          ((db.likes.filter (fun l => !(likePair uid pid l))).countP
            (fun l => l.post_id == p.id) : Int)
        have hrem := countP_filter_remove (fun l => l.post_id == p.id)
          (likePair uid pid) db.likes (fun x hx => by
            unfold likePair at hx
            simp only [Bool.and_eq_true, beq_iff_eq] at hx
            simp [hx.2, hid]) hone
        omega
      · exact hbase.2
    · have hb : (p.id == pid) = false := by simp [hid]
      simp only [hb, Bool.false_eq_true, if_false]
      constructor
      · show p.likes_count =
          ((db.likes.filter (fun l => !(likePair uid pid l))).countP
            (fun l => l.post_id == p.id) : Int)
        have hkeep := countP_filter_keep (fun l => l.post_id == p.id)
          (likePair uid pid) db.likes (fun x hx => by
            unfold likePair at hx
            simp only [Bool.and_eq_true, beq_iff_eq] at hx
            simp [hx.2, Ne.symm hid])
        omega
      · exact hbase.2
  · intro u' hu'
    exact hcU u' hu'

lemma countFollowing_append (db : DB) (a b P : Nat) :
    countFollowing { db with follows := db.follows ++ [⟨a, b⟩] } P =
      countFollowing db P + (if a = P then 1 else 0) := by
  unfold countFollowing
  rw [List.countP_append]
  by_cases hP : a = P
  · subst hP; simp
  · simp [hP]

lemma countFollowers_append (db : DB) (a b P : Nat) :
    countFollowers { db with follows := db.follows ++ [⟨a, b⟩] } P =
      countFollowers db P + (if b = P then 1 else 0) := by
  unfold countFollowers
  rw [List.countP_append]
  by_cases hP : b = P
  · subst hP; simp
  · simp [hP]

lemma countFollowing_remove (db : DB) (a b P : Nat)
    (hone : db.follows.countP (followPair a b) = 1) :
    countFollowing
        { db with follows := db.follows.filter (fun f => !(followPair a b f)) } P =
      countFollowing db P - (if a = P then 1 else 0) := by
  unfold countFollowing
  by_cases hP : a = P
  · have hrem := countP_filter_remove (fun f => f.follower_id == P) (followPair a b)
      db.follows (fun x hx => by
        unfold followPair at hx
        simp only [Bool.and_eq_true, beq_iff_eq] at hx
        simp [hx.1, hP]) hone
    simp only [if_pos hP]
    omega
  · have hkeep := countP_filter_keep (fun f => f.follower_id == P) (followPair a b)
      db.follows (fun x hx => by
        unfold followPair at hx
        simp only [Bool.and_eq_true, beq_iff_eq] at hx
        simp [hx.1, hP])
    simp only [if_neg hP]
    omega

lemma countFollowers_remove (db : DB) (a b P : Nat)
    (hone : db.follows.countP (followPair a b) = 1) :
    countFollowers
        { db with follows := db.follows.filter (fun f => !(followPair a b f)) } P =
      countFollowers db P - (if b = P then 1 else 0) := by
  unfold countFollowers
  by_cases hP : b = P
  · have hrem := countP_filter_remove (fun f => f.followed_id == P) (followPair a b)
      db.follows (fun x hx => by
        unfold followPair at hx
        simp only [Bool.and_eq_true, beq_iff_eq] at hx
        simp [hx.2, hP]) hone
    simp only [if_pos hP]
    omega
  · have hkeep := countP_filter_keep (fun f => f.followed_id == P) (followPair a b)
      db.follows (fun x hx => by
        unfold followPair at hx
        simp only [Bool.and_eq_true, beq_iff_eq] at hx
        simp [hx.2, hP])
    simp only [if_neg hP]
    omega

lemma WF_createFollow (a b : Nat) (db : DB) (h : WF db) :
    WF (createFollow a b db).2 := by
  obtain ⟨⟨hndL, hndS, hndF⟩, hcP, hcU⟩ := h
  unfold createFollow
  cases hself : (a == b) with
  | true => exact ⟨⟨hndL, hndS, hndF⟩, hcP, hcU⟩
  | false =>
  cases hex : (activeUserExists db a && activeUserExists db b) with
  | false => exact ⟨⟨hndL, hndS, hndF⟩, hcP, hcU⟩
  | true =>
  cases hdup : db.follows.any (followPair a b) with
  | true => exact ⟨⟨hndL, hndS, hndF⟩, hcP, hcU⟩
  | false =>
  simp only [Bool.false_eq_true, if_false, Bool.not_true]
  have hself' : ¬ a = b := by simpa using hself
  refine ⟨⟨hndL, hndS, ?_⟩, ?_, ?_⟩
  · show (List.map (fun f => (f.follower_id, f.followed_id))
      (db.follows ++ [⟨a, b⟩])).Nodup
    rw [List.map_append, List.nodup_append]
    refine ⟨hndF, by simp, ?_⟩
    intro x hx hy
    simp only [List.map_cons, List.map_nil, List.mem_singleton] at hy
    subst hy
    obtain ⟨f', hf', he⟩ := List.mem_map.mp hx
    have hpair : followPair a b f' = true := by
      unfold followPair
      simp only [Prod.mk.injEq] at he
      simp [he.1, he.2]
    have hany : db.follows.any (followPair a b) = true :=
      List.any_eq_true.mpr ⟨f', hf', hpair⟩
    rw [hdup] at hany
    exact Bool.noConfusion hany
  · intro p' hp'
    exact hcP p' hp'
  · intro u' hu'
    have hu2 : u' ∈ (db.users.map (fun u =>
        if u.id == a then { u with following_count := u.following_count + 1 } else u)).map
        (fun u =>
          if u.id == b then { u with followers_count := u.followers_count + 1 } else u) := hu'
    obtain ⟨v, hv, rfl⟩ := List.mem_map.mp hu2
    obtain ⟨u, hu0, rfl⟩ := List.mem_map.mp hv
    have base := hcU u hu0
    by_cases hA : u.id = a
    · by_cases hB : u.id = b
      · exact absurd (hA.symm.trans hB) hself'
      · have hb1 : (u.id == a) = true := by simp [hA]
        have hb2 : (u.id == b) = false := by simp [hB]
        simp only [hb1, if_true, hb2, Bool.false_eq_true, if_false]
        constructor
        · show u.followers_count =
            countFollowers { db with follows := db.follows ++ [⟨a, b⟩] } u.id
          rw [countFollowers_append, if_neg (Ne.symm hB), add_zero]
          exact base.1
        · show u.following_count + 1 =
            countFollowing { db with follows := db.follows ++ [⟨a, b⟩] } u.id
          rw [countFollowing_append, if_pos hA.symm, ← base.2]
    · by_cases hB : u.id = b
      · have hb1 : (u.id == a) = false := by simp [hA]
        have hb2 : (u.id == b) = true := by simp [hB]
        simp only [hb1, Bool.false_eq_true, if_false, hb2, if_true]
        constructor
        · show u.followers_count + 1 =
            countFollowers { db with follows := db.follows ++ [⟨a, b⟩] } u.id
          rw [countFollowers_append, if_pos hB.symm, ← base.1]
        · show u.following_count =
            countFollowing { db with follows := db.follows ++ [⟨a, b⟩] } u.id
          rw [countFollowing_append, if_neg (Ne.symm hA), add_zero]
          exact base.2
      · have hb1 : (u.id == a) = false := by simp [hA]
        have hb2 : (u.id == b) = false := by simp [hB]
        simp only [hb1, hb2, Bool.false_eq_true, if_false]
        constructor
        · show u.followers_count =
            countFollowers { db with follows := db.follows ++ [⟨a, b⟩] } u.id
          rw [countFollowers_append, if_neg (Ne.symm hB), add_zero]
          exact base.1
        · show u.following_count =
            countFollowing { db with follows := db.follows ++ [⟨a, b⟩] } u.id
          rw [countFollowing_append, if_neg (Ne.symm hA), add_zero]
          exact base.2

lemma WF_deleteFollow (a b : Nat) (db : DB) (h : WF db) :
    WF (deleteFollow a b db).2 := by
  obtain ⟨⟨hndL, hndS, hndF⟩, hcP, hcU⟩ := h
  unfold deleteFollow
  cases hdup : db.follows.any (followPair a b) with
  | false => exact ⟨⟨hndL, hndS, hndF⟩, hcP, hcU⟩
  | true =>
  have hd' : (db.follows.any fun f => f.follower_id == a && f.followed_id == b) = true := hdup
  have hone' : (db.follows.countP fun f => f.follower_id == a && f.followed_id == b) = 1 :=
    countP_pair_eq_one (fun f => f.follower_id) (fun f => f.followed_id) a b db.follows hndF hd'
  have hone : db.follows.countP (followPair a b) = 1 := hone'
  simp only [if_true]
  refine ⟨⟨hndL, hndS, ?_⟩, ?_, ?_⟩
  · show (List.map (fun f => (f.follower_id, f.followed_id))
      (db.follows.filter (fun f => !(followPair a b f)))).Nodup
    exact List.Nodup.sublist
      (List.Sublist.map _ (List.filter_sublist db.follows)) hndF
  · intro p' hp'
    exact hcP p' hp'
  · intro u' hu'
    have hu2 : u' ∈ (db.users.map (fun u =>
        if u.id == a then { u with following_count := u.following_count - 1 } else u)).map
        (fun u =>
          if u.id == b then { u with followers_count := u.followers_count - 1 } else u) := hu'
    obtain ⟨v, hv, rfl⟩ := List.mem_map.mp hu2
    obtain ⟨u, hu0, rfl⟩ := List.mem_map.mp hv
    have base := hcU u hu0
    have hFg := countFollowing_remove db a b u.id hone
    have hFr := countFollowers_remove db a b u.id hone
    by_cases hA : u.id = a
    · by_cases hB : u.id = b
      · have hb1 : (u.id == a) = true := by simp [hA]
        have hb2 : (u.id == b) = true := by simp [hB]
        simp only [hb1, hb2, if_true]
        constructor
        · show u.followers_count - 1 = countFollowers
            { db with follows := db.follows.filter (fun f => !(followPair a b f)) } u.id
          rw [hFr, if_pos hB.symm, ← base.1]
        · show u.following_count - 1 = countFollowing
            { db with follows := db.follows.filter (fun f => !(followPair a b f)) } u.id
          rw [hFg, if_pos hA.symm, ← base.2]
      · have hb1 : (u.id == a) = true := by simp [hA]
        have hb2 : (u.id == b) = false := by simp [hB]
        simp only [hb1, if_true, hb2, Bool.false_eq_true, if_false]
        constructor
        · show u.followers_count = countFollowers
            { db with follows := db.follows.filter (fun f => !(followPair a b f)) } u.id
          rw [hFr, if_neg (Ne.symm hB), ← base.1]
          omega
        · show u.following_count - 1 = countFollowing
            { db with follows := db.follows.filter (fun f => !(followPair a b f)) } u.id
          rw [hFg, if_pos hA.symm, ← base.2]
    · by_cases hB : u.id = b
      · have hb1 : (u.id == a) = false := by simp [hA]
        have hb2 : (u.id == b) = true := by simp [hB]
        simp only [hb1, Bool.false_eq_true, if_false, hb2, if_true]
        constructor
        · show u.followers_count - 1 = countFollowers
            { db with follows := db.follows.filter (fun f => !(followPair a b f)) } u.id
          rw [hFr, if_pos hB.symm, ← base.1]
        · show u.following_count = countFollowing
            { db with follows := db.follows.filter (fun f => !(followPair a b f)) } u.id
          rw [hFg, if_neg (Ne.symm hA), ← base.2]
          omega
      · have hb1 : (u.id == a) = false := by simp [hA]
        have hb2 : (u.id == b) = false := by simp [hB]
        simp only [hb1, hb2, Bool.false_eq_true, if_false]
        constructor
        · show u.followers_count = countFollowers
            { db with follows := db.follows.filter (fun f => !(followPair a b f)) } u.id
          rw [hFr, if_neg (Ne.symm hB), ← base.1]
          omega
        · show u.following_count = countFollowing
            { db with follows := db.follows.filter (fun f => !(followPair a b f)) } u.id
          rw [hFg, if_neg (Ne.symm hA), ← base.2]
          omega

/-! ## Concrete states used by witnesses and counterexamples -/

/-- The empty store. -/
def dbEmpty : DB := ⟨[], [], [], [], [], [], [], []⟩

/-- Two active users (ids 1 and 2, balance `100.00`), one active post
(id 1, all counters zero), one active package (id 1, price `19.99`,
30 days); no relationship rows. -/
def dbBase : DB :=
  { users := [
      { id := 1, balance := 10000, followers_count := 0, following_count := 0,
        is_premium := false, premium_expires_at := none, is_active := true },
      { id := 2, balance := 10000, followers_count := 0, following_count := 0,
        is_premium := false, premium_expires_at := none, is_active := true }]
    posts := [
      { id := 1, user_id := 1, likes_count := 0, comments_count := 0,
        shares_count := 0, is_active := true }]
    likes := []
    follows := []
    shares := []
    packages := [
      { id := 1, price := 1999, duration_days := 30, is_active := true }]
    transactions := []
    notifications := [] }

/-- `dbBase` after user 2 liked post 1: one Like row and `likes_count = 1`. -/
def dbLiked : DB :=
  { dbBase with
    posts := [
      { id := 1, user_id := 1, likes_count := 1, comments_count := 0,
        shares_count := 0, is_active := true }]
    likes := [⟨2, 1⟩] }

/-! ## Claim theorems -/

/-- C2: at every well-formed state (unique relationship pairs, and every
denormalized counter equal to the count of its relationship rows), each of
the five counter-consistency operations leaves the state well-formed, so
`likes_count`, `shares_count`, `followers_count` and `following_count`
always equal the corresponding row counts at quiescent points. -/
theorem counters_match_row_counts (db : DB) (hWF : WF db) (uid pid a b : Nat) :
    WF (createLike uid pid db).2 ∧ WF (deleteLike uid pid db).2 ∧
      WF (createShare uid pid db).2 ∧ WF (createFollow a b db).2 ∧
      WF (deleteFollow a b db).2 :=
  ⟨WF_createLike uid pid db hWF, WF_deleteLike uid pid db hWF,
    WF_createShare uid pid db hWF, WF_createFollow a b db hWF,
    WF_deleteFollow a b db hWF⟩

theorem counters_match_row_counts_witness :
    WF dbBase ∧
      (WF (createLike 2 1 dbBase).2 ∧ WF (deleteLike 2 1 dbBase).2 ∧
        WF (createShare 2 1 dbBase).2 ∧ WF (createFollow 1 2 dbBase).2 ∧
        WF (deleteFollow 1 2 dbBase).2) :=
  ⟨by decide, counters_match_row_counts dbBase (by decide) 2 1 1 2⟩

/-- The code's start-date selection
(`currentExpiration && currentExpiration > now ? currentExpiration : now`)
is `max(previous expiration (or now), now)`. -/
lemma startDate_eq_max (prev : Option Int) (now : Int) :
    (match prev with
      | some cur => if now < cur then cur else now
      | none => now) = max (prev.getD now) now := by
  cases prev with
  | none => simp
  | some cur =>
    simp only [Option.getD]
    by_cases h : now < cur
    · rw [if_pos h]; omega
    · rw [if_neg h]; omega

/-- C3: on every successful purchase the buyer's new `premium_expires_at`
equals `max(previous expiration (or `now`), `now`)` plus `duration_days`
days in milliseconds: a still-future expiration stacks instead of being
restarted from the purchase moment. -/
theorem premium_expiration_stacks (now : Int) (uid pkgId : Nat) (db : DB)
    (user : User) (pkg : PremiumPackage)
    (hu : findUser db uid = some user)
    (hp : db.packages.find? (fun p => p.id == pkgId) = some pkg)
    (hok : isOk (purchasePremium now uid pkgId db).1 = true) :
    ∃ u', findUser (purchasePremium now uid pkgId db).2 uid = some u' ∧
      u'.premium_expires_at =
        some (max (user.premium_expires_at.getD now) now +
          (pkg.duration_days : Int) * 86400000) := by
  unfold purchasePremium purchasePremiumF at hok ⊢
  rw [hu, hp] at hok ⊢
  by_cases hact : pkg.is_active
  · by_cases hbal : user.balance < pkg.price
    · simp [hact, hbal, isOk] at hok
    · simp only [hact, Bool.not_true, Bool.false_eq_true, if_false,
        hbal, updateUserRows, findUser] at hok ⊢
      rw [find?_map_pres _ _ (fun u => by
        cases h : (u.id == uid) <;> simp [h]) db.users]
      have hu' : db.users.find? (fun u => u.id == uid) = some user := hu
      rw [hu']
      have huid : (user.id == uid) = true := by
        have h2 := List.find?_some hu'
        exact h2
      refine ⟨_, rfl, ?_⟩
      simp only [huid, if_true]
      rw [startDate_eq_max]
  · simp [hact, isOk] at hok

theorem premium_expiration_stacks_witness :
    ∃ u', findUser (purchasePremium 0 1 1
        { dbBase with users := [
          { id := 1, balance := 10000, followers_count := 0, following_count := 0,
            is_premium := true, premium_expires_at := some 1296000000,
            is_active := true }] }).2 1 = some u' ∧
      u'.premium_expires_at = some 3888000000 :=
  premium_expiration_stacks 0 1 1 _
    { id := 1, balance := 10000, followers_count := 0, following_count := 0,
      is_premium := true, premium_expires_at := some 1296000000, is_active := true }
    { id := 1, price := 1999, duration_days := 30, is_active := true }
    (by decide) (by decide) (by decide)

/-- C1 (refuted): the source performs the user `UPDATE` and the ledger
`INSERT` with no enclosing `db.transaction`, so when the insert fails after
the update committed, the purchase reports an error while the balance
debit, the premium flag and the extended expiration stay visible and no
`purchase` Transaction row exists — a partial state the claim forbids.
Concretely: user 1 (balance `100.00`), package 1 (price `19.99`, 30 days),
insert failing. -/
theorem purchase_not_atomic_partial_commit :
    isOk (purchasePremiumF false true 0 1 1 dbBase).1 = false ∧
      (purchasePremiumF false true 0 1 1 dbBase).2.transactions = [] ∧
      findUser (purchasePremiumF false true 0 1 1 dbBase).2 1 =
        some { id := 1, balance := 8001, followers_count := 0,
               following_count := 0, is_premium := true,
               premium_expires_at := some 2592000000, is_active := true } := by
  decide

/-- `find?` for the active-post check commutes with a post update that
keeps `id` and `is_active`. -/
lemma findActive_update (db : DB) (pid : Nat) (f : Post → Post)
    (hid : ∀ p, (f p).id = p.id) (hact : ∀ p, (f p).is_active = p.is_active) :
    (updatePostRows db pid f).posts.find? (fun q => q.id == pid && q.is_active) =
      (db.posts.find? (fun q => q.id == pid && q.is_active)).map
        (fun p => if p.id == pid then f p else p) := by
  unfold updatePostRows
  exact find?_map_pres _ _ (fun p => by
    cases h : (p.id == pid) <;> simp [h, hid, hact]) _

/-- `findPost` commutes with a post update that keeps `id`. -/
lemma findPost_update (db : DB) (pid : Nat) (f : Post → Post)
    (hid : ∀ p, (f p).id = p.id) :
    findPost (updatePostRows db pid f) pid =
      (findPost db pid).map (fun p => if p.id == pid then f p else p) := by
  unfold findPost updatePostRows
  exact find?_map_pres _ _ (fun p => by
    cases h : (p.id == pid) <;> simp [h, hid]) _

/-- `createLike` on a pair that already has a Like row rejects with the
duplicate error and leaves the state unchanged. -/
lemma createLike_dup (uid pid : Nat) (db : DB) (u : User) (p : Post)
    (hu : findUser db uid = some u)
    (hp : db.posts.find? (fun q => q.id == pid && q.is_active) = some p)
    (hdup : db.likes.any (likePair uid pid) = true) :
    createLike uid pid db = (.error .alreadyLiked, db) := by
  unfold createLike
  rw [hu, hp]
  simp only [hdup, if_true]

/-- C4: from a state where the user exists, the post exists and is active,
and the pair has no Like row yet, the first `createLike` succeeds and the
second raises the duplicate (Conflict) error and changes nothing; exactly
one Like row for the pair exists afterwards and the post's `likes_count`
went up by exactly 1 in total. -/
theorem like_duplicate_rejected (uid pid : Nat) (db : DB)
    (hu : (findUser db uid).isSome = true)
    (hp : (db.posts.find? (fun q => q.id == pid && q.is_active)).isSome = true)
    (hnol : db.likes.any (likePair uid pid) = false) :
    isOk (createLike uid pid db).1 = true ∧
      (createLike uid pid (createLike uid pid db).2).1 = .error .alreadyLiked ∧
      (createLike uid pid (createLike uid pid db).2).2 = (createLike uid pid db).2 ∧
      (createLike uid pid db).2.likes.countP (likePair uid pid) = 1 ∧
      (findPost (createLike uid pid db).2 pid).map (fun q => q.likes_count) =
        (findPost db pid).map (fun q => q.likes_count + 1) := by
  cases hu0 : findUser db uid with
  | none => rw [hu0] at hu; exact Bool.noConfusion hu
  | some u =>
  cases hp0 : db.posts.find? (fun q => q.id == pid && q.is_active) with
  | none => rw [hp0] at hp; exact Bool.noConfusion hp
  | some p =>
  have heq : createLike uid pid db =
      (.ok ⟨uid, pid⟩,
        updatePostRows { db with likes := db.likes ++ [⟨uid, pid⟩] } pid
          (fun q => { q with likes_count := q.likes_count + 1 })) := by
    unfold createLike
    rw [hu0, hp0]
    simp only [hnol, Bool.false_eq_true, if_false]
  rw [heq]
  have hfu1 : findUser (updatePostRows { db with likes := db.likes ++ [⟨uid, pid⟩] }
      pid (fun q => { q with likes_count := q.likes_count + 1 })) uid = some u := hu0
  have hfp1 : (updatePostRows { db with likes := db.likes ++ [⟨uid, pid⟩] } pid
        (fun q => { q with likes_count := q.likes_count + 1 })).posts.find?
        (fun q => q.id == pid && q.is_active) =
      some (if p.id == pid then { p with likes_count := p.likes_count + 1 } else p) := by
    rw [show (updatePostRows { db with likes := db.likes ++ [⟨uid, pid⟩] } pid
        (fun q => { q with likes_count := q.likes_count + 1 })).posts.find?
        (fun q => q.id == pid && q.is_active) =
      (db.posts.find? (fun q => q.id == pid && q.is_active)).map
        (fun q => if q.id == pid then { q with likes_count := q.likes_count + 1 } else q)
      from findActive_update { db with likes := db.likes ++ [⟨uid, pid⟩] } pid _
        (fun q => rfl) (fun q => rfl), hp0]
    rfl
  have hdup1 : (db.likes ++ [(⟨uid, pid⟩ : LikeRow)]).any (likePair uid pid) = true := by
    apply List.any_eq_true.mpr
    refine ⟨⟨uid, pid⟩, by simp, by unfold likePair; simp⟩
  have heq2 := createLike_dup uid pid _ u _ hfu1 hfp1 hdup1
  refine ⟨rfl, by rw [heq2], by rw [heq2], ?_, ?_⟩
  · show (db.likes ++ [(⟨uid, pid⟩ : LikeRow)]).countP (likePair uid pid) = 1
    rw [List.countP_append]
    have h0 : db.likes.countP (likePair uid pid) = 0 := by
      rw [List.countP_eq_zero]
      intro x hx hpx
      have := List.any_eq_false.mp hnol x hx
      exact this hpx
    rw [h0]
    unfold likePair
    simp
  · rw [findPost_update { db with likes := db.likes ++ [⟨uid, pid⟩] } pid
      (fun q => { q with likes_count := q.likes_count + 1 }) (fun q => rfl),
      show findPost { db with likes := db.likes ++ [⟨uid, pid⟩] } pid =
        findPost db pid from rfl]
    cases hq : findPost db pid with
    | none => rfl
    | some q =>
      have hqid : (q.id == pid) = true := by
        have h2 := List.find?_some hq
        exact h2
      have hqid' : q.id = pid := by simpa using hqid
      simp [hqid']

theorem like_duplicate_rejected_witness :
    isOk (createLike 2 1 dbBase).1 = true ∧
      (createLike 2 1 (createLike 2 1 dbBase).2).1 = .error .alreadyLiked ∧
      (createLike 2 1 (createLike 2 1 dbBase).2).2 = (createLike 2 1 dbBase).2 ∧
      (createLike 2 1 dbBase).2.likes.countP (likePair 2 1) = 1 ∧
      (findPost (createLike 2 1 dbBase).2 1).map (fun q => q.likes_count) =
        (findPost dbBase 1).map (fun q => q.likes_count + 1) :=
  like_duplicate_rejected 2 1 dbBase (by decide) (by decide) (by decide)

/-- C5: for an existing user, `topUpBalance` returns the
`topup/completed` Transaction carrying the amount, appends exactly that
one ledger row, and sets the balance to the old balance plus the amount;
when any write inside the wrapping `db.transaction` fails, the whole call
errors with the database unchanged (both writes visible or neither). -/
theorem topup_balance_conservation (input : TopUpInput) (db : DB) (user : User)
    (hu : findUser db input.user_id = some user) (hpos : 0 < input.amount) :
    (topUpBalance input db).1 =
      .ok { user_id := input.user_id, type := .topup, amount := input.amount,
            premium_package_id := none, status := .completed } ∧
      (topUpBalance input db).2.transactions = db.transactions ++
        [{ user_id := input.user_id, type := .topup, amount := input.amount,
           premium_package_id := none, status := .completed }] ∧
      (findUser (topUpBalance input db).2 input.user_id).map (fun v => v.balance) =
        some (user.balance + input.amount) ∧
      topUpBalanceF true input db = (.error .dbFailure, db) := by
  unfold topUpBalance topUpBalanceF
  rw [hu]
  refine ⟨rfl, rfl, ?_, rfl⟩
  simp only [Bool.false_eq_true, if_false, updateUserRows, findUser]
  rw [find?_map_pres _ _ (fun v => by
    cases h : (v.id == input.user_id) <;> simp [h]) _]
  have hu' : db.users.find? (fun v => v.id == input.user_id) = some user := hu
  rw [hu']
  have huid : (user.id == input.user_id) = true := by
    have h2 := List.find?_some hu'
    exact h2
  have huid' : user.id = input.user_id := by simpa using huid
  simp [huid']

theorem topup_balance_conservation_witness :
    (topUpBalance ⟨1, 500⟩ dbBase).1 =
      .ok { user_id := 1, type := .topup, amount := 500,
            premium_package_id := none, status := .completed } ∧
      (topUpBalance ⟨1, 500⟩ dbBase).2.transactions = dbBase.transactions ++
        [{ user_id := 1, type := .topup, amount := 500,
           premium_package_id := none, status := .completed }] ∧
      (findUser (topUpBalance ⟨1, 500⟩ dbBase).2 1).map (fun v => v.balance) =
        some (10000 + 500) ∧
      topUpBalanceF true ⟨1, 500⟩ dbBase = (.error .dbFailure, dbBase) :=
  topup_balance_conservation ⟨1, 500⟩ dbBase
    { id := 1, balance := 10000, followers_count := 0, following_count := 0,
      is_premium := false, premium_expires_at := none, is_active := true }
    (by decide) (by decide)

/-- C6: when the post exists, a Like row exists for the pair, and the
counter is at least 1 (which holds in every counter-consistent state),
`deleteLike` answers `{success:true}` then `{success:false}`, the second
call changes nothing, and `likes_count` drops by exactly 1 in total. -/
theorem unlike_idempotent (uid pid : Nat) (db : DB) (p : Post)
    (hp : findPost db pid = some p)
    (hl : db.likes.any (likePair uid pid) = true)
    (hc : 1 ≤ p.likes_count) :
    (deleteLike uid pid db).1 = .ok true ∧
      deleteLike uid pid (deleteLike uid pid db).2 =
        (.ok false, (deleteLike uid pid db).2) ∧
      (findPost (deleteLike uid pid db).2 pid).map (fun q => q.likes_count) =
        some (p.likes_count - 1) := by
  have heq : deleteLike uid pid db =
      (.ok true, updatePostRows
        { db with likes := db.likes.filter (fun l => !(likePair uid pid l)) } pid
        (fun q => { q with likes_count := max (q.likes_count - 1) 0 })) := by
    unfold deleteLike
    simp only [hl, if_true]
    rw [hp]
  rw [heq]
  have hnone : ((updatePostRows
      { db with likes := db.likes.filter (fun l => !(likePair uid pid l)) } pid
      (fun q => { q with likes_count := max (q.likes_count - 1) 0 })).likes.any
        (likePair uid pid)) = false := any_filter_not (likePair uid pid) db.likes
  have heq2 : deleteLike uid pid (updatePostRows
      { db with likes := db.likes.filter (fun l => !(likePair uid pid l)) } pid
      (fun q => { q with likes_count := max (q.likes_count - 1) 0 })) =
      (.ok false, updatePostRows
        { db with likes := db.likes.filter (fun l => !(likePair uid pid l)) } pid
        (fun q => { q with likes_count := max (q.likes_count - 1) 0 })) := by
    unfold deleteLike
    simp only [hnone, Bool.false_eq_true, if_false]
  refine ⟨rfl, heq2, ?_⟩
  rw [findPost_update
    { db with likes := db.likes.filter (fun l => !(likePair uid pid l)) } pid
    (fun q => { q with likes_count := max (q.likes_count - 1) 0 }) (fun q => rfl),
    show findPost { db with likes := db.likes.filter (fun l => !(likePair uid pid l)) }
      pid = findPost db pid from rfl, hp]
  have hpid : (p.id == pid) = true := by
    have h2 := List.find?_some hp
    exact h2
  have hpid' : p.id = pid := by simpa using hpid
  simp only [Option.map, Option.bind, hpid', if_pos rfl]
  have hmax : max (p.likes_count - 1) 0 = p.likes_count - 1 := by omega
  simp [hmax]

theorem unlike_idempotent_witness :
    (deleteLike 2 1 dbLiked).1 = .ok true ∧
      deleteLike 2 1 (deleteLike 2 1 dbLiked).2 =
        (.ok false, (deleteLike 2 1 dbLiked).2) ∧
      (findPost (deleteLike 2 1 dbLiked).2 1).map (fun q => q.likes_count) =
        some (1 - 1) :=
  unlike_idempotent 2 1 dbLiked
    { id := 1, user_id := 1, likes_count := 1, comments_count := 0,
      shares_count := 0, is_active := true }
    (by decide) (by decide) (by decide)

/-- Every post's `likes_count` is nonnegative. -/
def nonnegLikes (db : DB) : Prop := ∀ q ∈ db.posts, 0 ≤ q.likes_count

instance (db : DB) : Decidable (nonnegLikes db) := by
  unfold nonnegLikes; infer_instance

/-- C7: the zero floor differs by relationship type. `deleteLike` clamps
the decrement (`GREATEST(likes_count - 1, 0)`), so it never drives a
nonnegative `likes_count` negative; `deleteFollow` decrements without a
clamp, so from a constructed state with a Follow row and both counters at
zero it leaves `following_count = -1` and `followers_count = -1`. -/
theorem floor_policy_asymmetry (uid pid : Nat) (db : DB) (h : nonnegLikes db) :
    nonnegLikes (deleteLike uid pid db).2 ∧
      (findUser (deleteFollow 1 2 { dbBase with follows := [⟨1, 2⟩] }).2 1).map
        (fun v => v.following_count) = some (-1) ∧
      (findUser (deleteFollow 1 2 { dbBase with follows := [⟨1, 2⟩] }).2 2).map
        (fun v => v.followers_count) = some (-1) := by
  refine ⟨?_, by decide, by decide⟩
  unfold deleteLike
  cases hl : db.likes.any (likePair uid pid) with
  | false => exact h
  | true =>
  cases hp : findPost db pid with
  | none => exact h
  | some post =>
  intro q hq
  have hq2 : q ∈ db.posts.map (fun r =>
      if r.id == pid then { r with likes_count := max (r.likes_count - 1) 0 }
      else r) := hq
  obtain ⟨r, hr, rfl⟩ := List.mem_map.mp hq2
  cases hid : (r.id == pid) with
  | true =>
    simp only [hid, if_true]
    exact le_max_right _ _
  | false =>
    simp only [hid, Bool.false_eq_true, if_false]
    exact h r hr

theorem floor_policy_asymmetry_witness :
    nonnegLikes (deleteLike 2 1 dbBase).2 ∧
      (findUser (deleteFollow 1 2 { dbBase with follows := [⟨1, 2⟩] }).2 1).map
        (fun v => v.following_count) = some (-1) ∧
      (findUser (deleteFollow 1 2 { dbBase with follows := [⟨1, 2⟩] }).2 2).map
        (fun v => v.followers_count) = some (-1) :=
  floor_policy_asymmetry 2 1 dbBase (by decide)

/-- C8 (refuted as stated): with no Like row for the pair, `deleteLike`
returns `{success:false}` even when the target post does not exist — the
like-existence check runs before the post-existence check, so a missing
post alone does not raise. -/
theorem deleteLike_missing_post_counterexample :
    findPost dbEmpty 1 = none ∧ deleteLike 1 1 dbEmpty = (.ok false, dbEmpty) := by
  decide

/-- C8 (amended): `deleteLike` raises the hard not-found error exactly
when a Like row exists for the pair and the post is missing; whenever no
Like row exists — whether or not the post exists — it returns
`{success:false}` without raising and changes nothing. -/
theorem deleteLike_error_policy (uid pid : Nat) (db : DB) :
    (db.likes.any (likePair uid pid) = true → findPost db pid = none →
      deleteLike uid pid db = (.error .postNotFound, db)) ∧
    (db.likes.any (likePair uid pid) = false →
      deleteLike uid pid db = (.ok false, db)) := by
  constructor
  · intro hl hp
    unfold deleteLike
    simp only [hl, if_true]
    rw [hp]
  · intro hl
    unfold deleteLike
    simp only [hl, Bool.false_eq_true, if_false]

theorem deleteLike_error_policy_witness :
    deleteLike 1 1 { dbEmpty with likes := [⟨1, 1⟩] } =
      (.error .postNotFound, { dbEmpty with likes := [⟨1, 1⟩] }) ∧
      deleteLike 1 1 dbBase = (.ok false, dbBase) :=
  ⟨(deleteLike_error_policy 1 1 { dbEmpty with likes := [⟨1, 1⟩] }).1
      (by decide) (by decide),
    (deleteLike_error_policy 1 1 dbBase).2 (by decide)⟩

/-- C9: `createFollow` with `follower_id = followed_id` fails with the
self-follow error before any existence check and changes nothing, whatever
the state. -/
theorem self_follow_rejected (a : Nat) (db : DB) :
    createFollow a a db = (.error .selfFollow, db) := by
  unfold createFollow
  simp

lemma insertByCreatedDesc_perm (n : NotificationRow) (l : List NotificationRow) :
    (insertByCreatedDesc n l).Perm (n :: l) := by
  induction l with
  | nil => exact List.Perm.refl _
  | cons m ms ih =>
    unfold insertByCreatedDesc
    by_cases h : m.created_at ≤ n.created_at
    · rw [if_pos h]
    · rw [if_neg h]
      exact (ih.cons m).trans (List.Perm.swap n m ms)

lemma sortByCreatedDesc_perm (l : List NotificationRow) :
    (sortByCreatedDesc l).Perm l := by
  induction l with
  | nil => exact List.Perm.refl _
  | cons n ns ih =>
    unfold sortByCreatedDesc
    exact (insertByCreatedDesc_perm n (sortByCreatedDesc ns)).trans (ih.cons n)

lemma insertByCreatedDesc_sorted (n : NotificationRow) (l : List NotificationRow)
    (h : List.Pairwise (fun a b => b.created_at ≤ a.created_at) l) :
    List.Pairwise (fun a b => b.created_at ≤ a.created_at)
      (insertByCreatedDesc n l) := by
  induction l with
  | nil =>
    unfold insertByCreatedDesc
    simp
  | cons m ms ih =>
    rw [List.pairwise_cons] at h
    obtain ⟨hm, hms⟩ := h
    unfold insertByCreatedDesc
    by_cases hle : m.created_at ≤ n.created_at
    · rw [if_pos hle]
      refine List.pairwise_cons.mpr ⟨?_, List.pairwise_cons.mpr ⟨hm, hms⟩⟩
      intro x hx
      rcases List.mem_cons.mp hx with rfl | hx'
      · exact hle
      · exact le_trans (hm x hx') hle
    · rw [if_neg hle]
      refine List.pairwise_cons.mpr ⟨?_, ih hms⟩
      intro x hx
      have hx2 := (insertByCreatedDesc_perm n ms).mem_iff.mp hx
      rcases List.mem_cons.mp hx2 with rfl | hx'
      · omega
      · exact hm x hx'

lemma sortByCreatedDesc_sorted (l : List NotificationRow) :
    List.Pairwise (fun a b => b.created_at ≤ a.created_at)
      (sortByCreatedDesc l) := by
  induction l with
  | nil =>
    unfold sortByCreatedDesc
    simp
  | cons n ns ih =>
    unfold sortByCreatedDesc
    exact insertByCreatedDesc_sorted n _ ih

/-- C10: every notification `getNotifications` returns has
`is_read = true` (the handler overrides the flag on the returned rows), it
marks every stored notification of the caller as read, and it returns the
caller's complete notification list ordered newest-first. -/
theorem notifications_always_read (uid : Nat) (db : DB) :
    (∀ n ∈ (getNotifications uid db).1, n.is_read = true) ∧
      (∀ n ∈ (getNotifications uid db).2.notifications,
        n.user_id = uid → n.is_read = true) ∧
      List.Pairwise (fun a b => b.created_at ≤ a.created_at)
        (getNotifications uid db).1 ∧
      (getNotifications uid db).1.Perm
        ((db.notifications.filter (fun n => n.user_id == uid)).map
          (fun n => { n with is_read := true })) := by
  unfold getNotifications
  dsimp only
  refine ⟨?_, ?_, ?_, ?_⟩
  · intro n hn
    obtain ⟨m, hm, rfl⟩ := List.mem_map.mp hn
    rfl
  · by_cases hlen : 0 < (sortByCreatedDesc
        (db.notifications.filter (fun x => x.user_id == uid))).length
    · rw [if_pos hlen]
      intro n hn huser
      obtain ⟨m, hm, rfl⟩ := List.mem_map.mp hn
      cases hmu : (m.user_id == uid) with
      | true => simp [hmu]
      | false =>
        simp only [hmu, Bool.false_eq_true, if_false]
        simp only [hmu, Bool.false_eq_true, if_false] at huser
        have : m.user_id ≠ uid := by simpa using hmu
        exact absurd huser this
    · rw [if_neg hlen]
      intro n hn huser
      have h0 : (db.notifications.filter (fun x => x.user_id == uid)).length = 0 := by
        have hpl := (sortByCreatedDesc_perm
          (db.notifications.filter (fun x => x.user_id == uid))).length_eq
        omega
      have hnil : db.notifications.filter (fun x => x.user_id == uid) = [] :=
        List.length_eq_zero.mp h0
      have hmem : n ∈ db.notifications.filter (fun x => x.user_id == uid) :=
        List.mem_filter.mpr ⟨hn, by simp [huser]⟩
      rw [hnil] at hmem
      exact absurd hmem (List.not_mem_nil n)
  · exact List.Pairwise.map _ (fun a b hab => hab) (sortByCreatedDesc_sorted _)
  · exact List.Perm.map _ (sortByCreatedDesc_perm _)

end SocialApp
